import Mathlib

/-!
# Shallow embedding of `fastquant/strategies.py`

This file embeds the position-sizing and order-lifecycle logic of the
`BaseStrategy` class and the `backtest` construction phase as executable
Lean definitions, and proves the properties of the specification against
them.  Python floats are modelled over `ℚ`; Python's `int(...)` truncation
toward zero is `pyInt`.
-/

namespace Fastquant

/-- Module-level constant `INIT_CASH = 100000`. -/
def INIT_CASH : ℚ := 100000

/-- Module-level constant `COMMISSION_PER_TRANSACTION = 0.0075`. -/
def COMMISSION_PER_TRANSACTION : ℚ := 75 / 10000

/-- Module-level constant `BUY_PROP = 1`. -/
def BUY_PROP : ℚ := 1

/-- Module-level constant `SELL_PROP = 1`. -/
def SELL_PROP : ℚ := 1

/-- Python's `int(x)` applied to a real number: truncation toward zero. -/
def pyInt (x : ℚ) : ℤ := if 0 ≤ x then ⌊x⌋ else ⌈x⌉

/-- The strategy-level parameters of `BaseStrategy.params`, stored on the
instance by `BaseStrategy.__init__` (which performs no validation). -/
structure Params where
  init_cash : ℚ
  buy_prop : ℚ
  sell_prop : ℚ
  execution_type : String
  periodic_logging : Bool
  transaction_logging : Bool
deriving DecidableEq

/-- The default parameter tuple of `BaseStrategy.params`. -/
def defaultParams : Params :=
  { init_cash := INIT_CASH
    buy_prop := BUY_PROP
    sell_prop := SELL_PROP
    execution_type := "close"
    periodic_logging := false
    transaction_logging := true }

/-- Order side: `self.buy(...)` vs `self.sell(...)`. -/
inductive Side where
  | buy
  | sell
deriving DecidableEq

/-- The backtrader order statuses consulted by `notify_order`. -/
inductive OrderStatus where
  | Submitted
  | Accepted
  | Completed
  | Canceled
  | Margin
  | Rejected
deriving DecidableEq

/-- An order as seen by the strategy: side, requested size, status, and the
`order.executed` fields read on completion. -/
structure Order where
  side : Side
  size : ℤ
  status : OrderStatus
  executedPrice : ℚ
  executedValue : ℚ
  executedComm : ℚ
deriving DecidableEq

/-- A freshly submitted order, as created by `self.buy(size=...)` or
`self.sell(size=...)`. -/
def mkSubmitted (sd : Side) (sz : ℤ) : Order :=
  { side := sd, size := sz, status := .Submitted
    executedPrice := 0, executedValue := 0, executedComm := 0 }

/-- One entry of the strategy's log, one constructor per `self.log(...)`
call site of the source. -/
inductive LogEvent where
  | closeLog (c : ℚ)
  | positionLog (sz : ℤ)
  | buyCreate (c : ℚ)
  | cashLog (c : ℚ)
  | priceLog (c : ℚ)
  | buyPropSizeLog (n : ℤ)
  | affordedSizeLog (n : ℤ)
  | finalSizeLog (n : ℤ)
  | sellCreate (c : ℚ)
  | buyExecuted (price value comm : ℚ)
  | sellExecuted (price value comm : ℚ)
  | cashValue (cash value : ℚ)
  | orderCMR
  | canceledFlag (b : Bool)
  | marginFlag (b : Bool)
  | rejectedFlag (b : Bool)
  | operationProfit (gross net : ℚ)
deriving DecidableEq

/-- The mutable per-instance state of `BaseStrategy`: the cash/value ledger
reported by the broker, the broker position size read via
`self.position.size`, the pending order `self.order`, the recorded cost
basis `self.buyprice`/`self.buycomm`, `self.bar_executed`, and the log. -/
structure StrategyState where
  cash : ℚ
  value : ℚ
  position : ℤ
  order : Option Order
  buyprice : Option ℚ
  buycomm : Option ℚ
  bar_executed : Option ℕ
  log : List LogEvent
deriving DecidableEq

/-- The state built by `BaseStrategy.__init__`: pending order, cost basis
and logs empty.  The broker cash/value both start at the initial cash
(`cerebro.broker.setcash(init_cash)`), position starts at zero.  No
parameter is validated. -/
def BaseStrategy_init (p : Params) : StrategyState :=
  { cash := p.init_cash, value := p.init_cash, position := 0
    order := none, buyprice := none, buycomm := none
    bar_executed := none, log := [] }

/-- The generalized affordable-size formula of the buy branch:
`int(cash / (price * (1 + rate + margin)))`. -/
def affordableSize (cash price rate margin : ℚ) : ℤ :=
  pyInt (cash / (price * (1 + rate + margin)))

/-- `afforded_size` exactly as computed in `BaseStrategy.next`:
`int(self.cash / (price * (1 + COMMISSION_PER_TRANSACTION + 0.001)))`. -/
def afforded_size (cash price : ℚ) : ℤ :=
  affordableSize cash price COMMISSION_PER_TRANSACTION (1 / 1000)

/-- The guard `len(self) + 1 >= self.len_data` of `BaseStrategy.next`. -/
def lastBarGuard (lenSelf len_data : ℕ) : Bool :=
  decide (len_data ≤ lenSelf + 1)

/-- `BaseStrategy.next`, embedded.  Inputs: the parameters, `len(self)` and
`self.len_data`, the data points read by the method (`self.dataclose[0]`,
`self.dataclose[1]`, `self.dataopen[1]`), the results of the polymorphic
`self.buy_signal()` / `self.sell_signal()` calls, and the current state.
Returns the new state and the list of orders submitted to the broker
during this call, in submission order. -/
def next (p : Params) (lenSelf len_data : ℕ) (close0 close1 open1 : ℚ)
    (buySig sellSig : Bool) (s : StrategyState) : StrategyState × List Order :=
  let s := if p.periodic_logging then { s with log := s.log ++ [.closeLog close0] } else s
  if s.order.isSome then (s, [])
  else if lastBarGuard lenSelf len_data then (s, [])
  else
    let s := if p.periodic_logging then { s with log := s.log ++ [.positionLog s.position] } else s
    let (s, buyOrders) :=
      if close0 ≤ s.cash then
        if buySig then
          let s := if p.transaction_logging then { s with log := s.log ++ [.buyCreate close0] } else s
          let afforded := afforded_size s.cash close0
          let buy_prop_size := pyInt ((afforded : ℚ) * p.buy_prop)
          if p.execution_type = "close" then
            let final_size := min buy_prop_size afforded
            let s := if p.transaction_logging then
                { s with log := s.log ++ [.cashLog s.cash, .priceLog close0,
                    .buyPropSizeLog buy_prop_size, .affordedSizeLog afforded,
                    .finalSizeLog final_size] }
              else s
            let o := mkSubmitted .buy final_size
            ({ s with order := some o }, [o])
          else
            let afforded2 := afforded_size s.cash open1
            let final_size := min buy_prop_size afforded2
            let s := if p.transaction_logging then
                { s with log := s.log ++ [.buyPropSizeLog buy_prop_size,
                    .affordedSizeLog afforded2, .finalSizeLog final_size] }
              else s
            let o := mkSubmitted .buy final_size
            ({ s with order := some o }, [o])
        else (s, [])
      else (s, [])
    let stock_value := s.value - s.cash
    let (s, sellOrders) :=
      if 0 < stock_value then
        if sellSig then
          let s := if p.transaction_logging then { s with log := s.log ++ [.sellCreate close1] } else s
          let o :=
            if p.execution_type = "close" then
              if SELL_PROP = 1 then mkSubmitted .sell s.position
              else mkSubmitted .sell (pyInt ((stock_value / close1) * p.sell_prop))
            else mkSubmitted .sell (pyInt ((p.init_cash / open1) * p.sell_prop))
          ({ s with order := some o }, [o])
        else (s, [])
      else (s, [])
    (s, buyOrders ++ sellOrders)

/-- `BaseStrategy.notify_order`, embedded.  `lenSelf` is `len(self)` at
notification time (recorded into `self.bar_executed` on completion). -/
def notify_order (p : Params) (lenSelf : ℕ) (o : Order) (s : StrategyState) : StrategyState :=
  if o.status = .Submitted ∨ o.status = .Accepted then s
  else
    let s :=
      if o.status = .Completed then
        let s :=
          if o.side = .buy then
            let s := if p.transaction_logging then
                { s with log := s.log ++ [.buyExecuted o.executedPrice o.executedValue o.executedComm] }
              else s
            { s with buyprice := some o.executedPrice, buycomm := some o.executedComm }
          else
            if p.transaction_logging then
              { s with log := s.log ++ [.sellExecuted o.executedPrice o.executedValue o.executedComm] }
            else s
        { s with bar_executed := some lenSelf }
      else if o.status = .Canceled ∨ o.status = .Margin ∨ o.status = .Rejected then
        if p.transaction_logging then
          let s := if ¬ p.periodic_logging then { s with log := s.log ++ [.cashValue s.cash s.value] } else s
          { s with log := s.log ++ [.orderCMR,
              .canceledFlag (decide (o.status = .Canceled)),
              .marginFlag (decide (o.status = .Margin)),
              .rejectedFlag (decide (o.status = .Rejected))] }
        else s
      else s
    { s with order := none }

/-- `BaseStrategy.notify_cashvalue`, embedded. -/
def notify_cashvalue (p : Params) (cash value : ℚ) (s : StrategyState) : StrategyState :=
  let s := if p.periodic_logging then { s with log := s.log ++ [.cashValue cash value] } else s
  { s with cash := cash, value := value }

end Fastquant

namespace Fastquant

/-- C1: if `self.order` is not `None` when `next()` runs, no order is
submitted that bar and the pending order, position and ledger fields are
left unchanged (`next` returns before the buy or sell branch). -/
theorem pending_order_blocks_submission (p : Params) (lenSelf len_data : ℕ)
    (close0 close1 open1 : ℚ) (buySig sellSig : Bool) (s : StrategyState)
    (h : s.order.isSome = true) :
    (next p lenSelf len_data close0 close1 open1 buySig sellSig s).2 = [] ∧
    (next p lenSelf len_data close0 close1 open1 buySig sellSig s).1.order = s.order ∧
    (next p lenSelf len_data close0 close1 open1 buySig sellSig s).1.cash = s.cash ∧
    (next p lenSelf len_data close0 close1 open1 buySig sellSig s).1.value = s.value ∧
    (next p lenSelf len_data close0 close1 open1 buySig sellSig s).1.position = s.position ∧
    (next p lenSelf len_data close0 close1 open1 buySig sellSig s).1.buyprice = s.buyprice ∧
    (next p lenSelf len_data close0 close1 open1 buySig sellSig s).1.buycomm = s.buycomm := by
  unfold next
  cases hpl : p.periodic_logging <;> simp [h]

/-- A strategy state with a pending order, used to witness the
pending-order guard. -/
def pendingState : StrategyState :=
  { BaseStrategy_init defaultParams with order := some (mkSubmitted .buy 1) }

/-- Witness for the pending-order guard at a concrete state. -/
theorem pending_order_blocks_submission_witness :
    pendingState.order.isSome = true ∧
    (next defaultParams 1 5 100 100 100 true true pendingState).2 = [] :=
  ⟨rfl, (pending_order_blocks_submission defaultParams 1 5 100 100 100 true true
    pendingState rfl).1⟩

/-- C2: the affordable size of the buy branch is
`floor(cash / (price * (1 + rate + margin)))`; it is maximal: buying that
many units at the commission-and-margin-loaded price stays within cash,
and one more unit would exceed it.  Concretely,
`afforded_size 100000 100 = 991`. -/
theorem affordable_size_correct (C P r m : ℚ)
    (hC : 0 ≤ C) (hP : 0 < P) (hr : 0 ≤ r) (hm : 0 ≤ m) :
    affordableSize C P r m = ⌊C / (P * (1 + r + m))⌋ ∧
    (affordableSize C P r m : ℚ) * (P * (1 + r + m)) ≤ C ∧
    C < ((affordableSize C P r m : ℚ) + 1) * (P * (1 + r + m)) ∧
    afforded_size 100000 100 = 991 := by
  have hs : (0 : ℚ) < 1 + r + m := by linarith
  have hk : (0 : ℚ) < P * (1 + r + m) := mul_pos hP hs
  have hx : (0 : ℚ) ≤ C / (P * (1 + r + m)) := div_nonneg hC hk.le
  have h1 : affordableSize C P r m = ⌊C / (P * (1 + r + m))⌋ := by
    unfold affordableSize pyInt
    rw [if_pos hx]
  refine ⟨h1, ?_, ?_, ?_⟩
  · rw [h1]
    have hfl := Int.floor_le (C / (P * (1 + r + m)))
    calc (⌊C / (P * (1 + r + m))⌋ : ℚ) * (P * (1 + r + m))
        ≤ (C / (P * (1 + r + m))) * (P * (1 + r + m)) :=
          mul_le_mul_of_nonneg_right hfl hk.le
      _ = C := div_mul_cancel₀ C hk.ne'
  · rw [h1]
    have hlt := Int.lt_floor_add_one (C / (P * (1 + r + m)))
    calc C = (C / (P * (1 + r + m))) * (P * (1 + r + m)) :=
          (div_mul_cancel₀ C hk.ne').symm
      _ < ((⌊C / (P * (1 + r + m))⌋ : ℚ) + 1) * (P * (1 + r + m)) := by
          exact mul_lt_mul_of_pos_right hlt hk
  · norm_num [afforded_size, affordableSize, pyInt, COMMISSION_PER_TRANSACTION]

/-- Witness for the affordable-size contract at the spec's concrete
scenario: cash 100000, price 100. -/
theorem affordable_size_correct_witness :
    (0 : ℚ) ≤ 100000 ∧ (0 : ℚ) < 100 ∧
    affordableSize 100000 100 COMMISSION_PER_TRANSACTION (1 / 1000) = 991 := by
  refine ⟨by norm_num, by norm_num, ?_⟩
  have h := (affordable_size_correct 100000 100 COMMISSION_PER_TRANSACTION (1 / 1000)
    (by norm_num) (by norm_num) (by norm_num [COMMISSION_PER_TRANSACTION]) (by norm_num)).2.2.2
  exact h

end Fastquant

namespace Fastquant

/-- C3 (counterexample): on a 3-bar feed, the guard already causes a
decision-free return on bar index 1 — which is not the final bar (index
2) — even though the pending-order field is clear and every buy condition
holds.  The claim that the guard fires only on the final bar is false. -/
theorem last_bar_guard_fires_before_final_bar :
    lastBarGuard 2 3 = true ∧ (1 : ℕ) ≠ 3 - 1 ∧
    (next defaultParams 2 3 100 100 100 true true (BaseStrategy_init defaultParams)).2 = [] := by
  refine ⟨rfl, by decide, rfl⟩

/-- C3 (amended): the guard `len(self) + 1 >= self.len_data` fires exactly
when the current 0-based bar index `i` satisfies `N ≤ i + 2`, i.e. on the
last two bars of an `N`-bar feed; on those bars `next` submits nothing and
leaves the pending-order field clear, so decisions are evaluated exactly
for bars `0 .. N-3`.  (`len(self)` equals `i + 1` inside `next`.) -/
theorem guard_skips_last_two_bars (p : Params) (i N : ℕ) (close0 close1 open1 : ℚ)
    (buySig sellSig : Bool) (s : StrategyState) (hiN : i < N) (hord : s.order = none) :
    (lastBarGuard (i + 1) N = true ↔ N ≤ i + 2) ∧
    (N ≤ i + 2 →
      (next p (i + 1) N close0 close1 open1 buySig sellSig s).2 = [] ∧
      (next p (i + 1) N close0 close1 open1 buySig sellSig s).1.order = none) := by
  constructor
  · simp [lastBarGuard]
  · intro hN
    have hg : lastBarGuard (i + 1) N = true := by
      simp only [lastBarGuard, decide_eq_true_eq]
      omega
    unfold next
    cases hpl : p.periodic_logging <;> simp [hord, hg]

/-- Witness for the amended last-bar-guard property at bar index 1 of a
3-bar feed. -/
theorem guard_skips_last_two_bars_witness :
    (1 : ℕ) < 3 ∧ (BaseStrategy_init defaultParams).order = none ∧
    (next defaultParams 2 3 100 100 100 true true (BaseStrategy_init defaultParams)).2 = [] :=
  ⟨by decide, rfl,
    ((guard_skips_last_two_bars defaultParams 1 3 100 100 100 true true
      (BaseStrategy_init defaultParams) (by decide) rfl).2 (by decide)).1⟩

end Fastquant

namespace Fastquant

/-- `pyInt` of a non-negative number is non-negative. -/
theorem pyInt_nonneg {x : ℚ} (h : 0 ≤ x) : 0 ≤ pyInt x := by
  unfold pyInt
  rw [if_pos h]
  exact Int.le_floor.mpr (by exact_mod_cast h)

/-- The commission-and-margin load factor of the buy branch is positive. -/
theorem load_factor_pos : (0 : ℚ) < 1 + COMMISSION_PER_TRANSACTION + 1 / 1000 := by
  norm_num [COMMISSION_PER_TRANSACTION]

/-- The afforded size of the buy branch is never negative. -/
theorem afforded_size_nonneg {cash price : ℚ} (hc : 0 ≤ cash) (hp : 0 < price) :
    0 ≤ afforded_size cash price := by
  unfold afforded_size affordableSize
  exact pyInt_nonneg (div_nonneg hc (mul_pos hp load_factor_pos).le)

/-- When cash cannot cover one unit at the loaded price, the afforded size
is zero. -/
theorem afforded_size_eq_zero {cash price : ℚ} (hc : 0 ≤ cash) (hp : 0 < price)
    (h : cash < price * (1 + COMMISSION_PER_TRANSACTION + 1 / 1000)) :
    afforded_size cash price = 0 := by
  have hk : (0 : ℚ) < price * (1 + COMMISSION_PER_TRANSACTION + 1 / 1000) :=
    mul_pos hp load_factor_pos
  unfold afforded_size affordableSize pyInt
  rw [if_pos (div_nonneg hc hk.le), Int.floor_eq_zero_iff]
  exact Set.mem_Ico.mpr ⟨div_nonneg hc hk.le, (div_lt_one hk).mpr h⟩

/-- A state holding a position worth 100, with prices making the buy
branch unaffordable, used against the open-execution sell branch. -/
def openSellState : StrategyState :=
  { cash := 50, value := 150, position := 10
    order := none, buyprice := none, buycomm := none
    bar_executed := none, log := [] }

/-- The default parameters with next-bar-open execution. -/
def openParams : Params := { defaultParams with execution_type := "open" }

/-- C4 (counterexample): under open execution the sell size is
`int(init_cash / nextOpen * sell_prop)`, which has nothing to do with the
held position: with a position of 10 and a next open of 1, a sell of
100000 units is submitted — the claim that the sell size never exceeds
the held position is false. -/
theorem open_sell_size_exceeds_position :
    (next openParams 1 5 100 100 1 true true openSellState).2 =
      [mkSubmitted .sell 100000] ∧ openSellState.position < 100000 := by
  have hne : ¬ ("open" = "close") := by simp
  constructor
  · simp only [next, openParams, openSellState, defaultParams, lastBarGuard, INIT_CASH,
      BUY_PROP, SELL_PROP, mkSubmitted]
    norm_num [pyInt, hne]
  · norm_num [openSellState]

/-- C4 (amended): under close execution, whenever the sell branch fires it
liquidates the entire held position for every configured `sell_prop`
(the branch tests the module constant `SELL_PROP = 1`): the submitted
sell order has exactly the held position size, hence never exceeds it.
Under open execution the size is `int(init_cash / nextOpen * sell_prop)`
and is not bounded by the position. -/
theorem sell_close_full_liquidation (p : Params) (lenSelf len_data : ℕ)
    (close0 close1 open1 : ℚ) (buySig : Bool) (s : StrategyState)
    (hexec : p.execution_type = "close") (hord : s.order = none)
    (hguard : lastBarGuard lenSelf len_data = false) (hsv : s.cash < s.value) :
    ((next p lenSelf len_data close0 close1 open1 buySig true s).2).getLast? =
      some (mkSubmitted .sell s.position) ∧
    (mkSubmitted .sell s.position).size ≤ s.position := by
  have hsv' : (0 : ℚ) < s.value - s.cash := sub_pos.mpr hsv
  refine ⟨?_, le_of_eq rfl⟩
  unfold next
  rw [hexec]
  cases hpl : p.periodic_logging <;> cases htl : p.transaction_logging <;>
    by_cases hb : close0 ≤ s.cash <;> cases buySig <;>
      simp [hord, hguard, hb, hsv, hsv', SELL_PROP]

/-- Witness for the close-execution full-liquidation property: a held
position of 10 is sold in full. -/
theorem sell_close_full_liquidation_witness :
    defaultParams.execution_type = "close" ∧ openSellState.order = none ∧
    lastBarGuard 1 5 = false ∧ openSellState.cash < openSellState.value ∧
    ((next defaultParams 1 5 100 100 1 true true openSellState).2).getLast? =
      some (mkSubmitted .sell 10) :=
  ⟨rfl, rfl, rfl, by norm_num [openSellState],
    (sell_close_full_liquidation defaultParams 1 5 100 100 1 true openSellState
      rfl rfl rfl (by norm_num [openSellState])).1⟩

end Fastquant

namespace Fastquant

/-- A state in which cash exactly equals the price, so one unit passes
the cash gate but the commission-loaded unit price is unaffordable. -/
def zeroSizeState : StrategyState :=
  { cash := 100, value := 100, position := 0
    order := none, buyprice := none, buycomm := none
    bar_executed := none, log := [] }

/-- C5 (counterexample): with cash 100 and price 100 the computed buy
size is 0, yet `next` still calls `self.buy` — a zero-size buy order is
submitted to the broker, refuting the claim that a zero size means no
order is sent. -/
theorem zero_size_buy_is_submitted :
    afforded_size zeroSizeState.cash 100 = 0 ∧
    (next defaultParams 1 5 100 100 100 true true zeroSizeState).2 =
      [mkSubmitted .buy 0] := by
  constructor
  · norm_num [zeroSizeState, afforded_size, affordableSize, pyInt,
      COMMISSION_PER_TRANSACTION]
  · simp only [next, defaultParams, zeroSizeState, lastBarGuard, INIT_CASH,
      BUY_PROP, SELL_PROP, mkSubmitted]
    norm_num [afforded_size, affordableSize, pyInt, COMMISSION_PER_TRANSACTION]

/-- C5 (amended): the computed buy size is never negative, and the
afforded size is 0 whenever cash cannot cover one commission-loaded unit;
but `next` submits the buy order unconditionally once the buy branch is
reached, so a size-0 order is still sent to the broker rather than
skipped. -/
theorem buy_size_nonneg_and_submitted (p : Params) (lenSelf len_data : ℕ)
    (close0 close1 open1 : ℚ) (sellSig : Bool) (s : StrategyState)
    (hcash : 0 ≤ s.cash) (hc0 : 0 < close0) (hbp : 0 ≤ p.buy_prop) :
    0 ≤ min (pyInt ((afforded_size s.cash close0 : ℚ) * p.buy_prop))
      (afforded_size s.cash close0) ∧
    (s.cash < close0 * (1 + COMMISSION_PER_TRANSACTION + 1 / 1000) →
      afforded_size s.cash close0 = 0) ∧
    (s.order = none → lastBarGuard lenSelf len_data = false → close0 ≤ s.cash →
      p.execution_type = "close" →
      ((next p lenSelf len_data close0 close1 open1 true sellSig s).2).head? =
        some (mkSubmitted .buy (min (pyInt ((afforded_size s.cash close0 : ℚ) * p.buy_prop))
          (afforded_size s.cash close0)))) := by
  have hsz : 0 ≤ afforded_size s.cash close0 := afforded_size_nonneg hcash hc0
  refine ⟨?_, fun h => afforded_size_eq_zero hcash hc0 h, ?_⟩
  · exact le_min (pyInt_nonneg (mul_nonneg (by exact_mod_cast hsz) hbp)) hsz
  · intro hord hguard hb hexec
    unfold next
    rw [hexec]
    cases hpl : p.periodic_logging <;> cases htl : p.transaction_logging <;>
      simp [hord, hguard, hb]

/-- Witness for the amended buy-sizing property at the zero-size state:
all hypotheses hold at cash = price = 100 and the head of the submission
list is the size-0 buy order. -/
theorem buy_size_nonneg_and_submitted_witness :
    (0 : ℚ) ≤ zeroSizeState.cash ∧ (0 : ℚ) < 100 ∧ (0 : ℚ) ≤ defaultParams.buy_prop ∧
    ((next defaultParams 1 5 100 100 100 true true zeroSizeState).2).head? =
      some (mkSubmitted .buy (min (pyInt ((afforded_size zeroSizeState.cash 100 : ℚ) *
        defaultParams.buy_prop)) (afforded_size zeroSizeState.cash 100))) :=
  ⟨by norm_num [zeroSizeState], by norm_num,
    by norm_num [defaultParams, BUY_PROP],
    (buy_size_nonneg_and_submitted defaultParams 1 5 100 100 100 true zeroSizeState
      (by norm_num [zeroSizeState]) (by norm_num)
      (by norm_num [defaultParams, BUY_PROP])).2.2 rfl rfl
      (by norm_num [zeroSizeState]) rfl⟩

end Fastquant

namespace Fastquant

/-- A state with ample cash and a held position, so that both the buy and
the sell conditions hold on the same bar. -/
def buyAndSellState : StrategyState :=
  { cash := 100000, value := 100200, position := 2
    order := none, buyprice := none, buycomm := none
    bar_executed := none, log := [] }

/-- C6 (counterexample): on a single bar with both signals true, ample
cash and a held position, `next` submits a buy of 991 units *and* a sell
of the whole position — two orders in one bar.  Submitting the buy does
not make the sell branch skip, because `self.order` is only consulted at
the top of the *next* call. -/
theorem buy_and_sell_same_bar :
    (next defaultParams 1 5 100 100 100 true true buyAndSellState).2 =
      [mkSubmitted .buy 991, mkSubmitted .sell 2] := by
  simp only [next, defaultParams, buyAndSellState, lastBarGuard, INIT_CASH,
    BUY_PROP, SELL_PROP, mkSubmitted]
  norm_num [afforded_size, affordableSize, pyInt, COMMISSION_PER_TRANSACTION]

/-- C6 (amended): when the buy branch submits and the sell conditions
also hold in the same bar (close execution), the sell branch is *not*
skipped: `next` submits both orders, and the sell order overwrites the
pending-order field.  The single-order guard only takes effect on the
following bar. -/
theorem buy_then_sell_both_submitted (p : Params) (lenSelf len_data : ℕ)
    (close0 close1 open1 : ℚ) (s : StrategyState)
    (hexec : p.execution_type = "close") (hord : s.order = none)
    (hguard : lastBarGuard lenSelf len_data = false)
    (hb : close0 ≤ s.cash) (hsv : s.cash < s.value) :
    (next p lenSelf len_data close0 close1 open1 true true s).2 =
      [mkSubmitted .buy (min (pyInt ((afforded_size s.cash close0 : ℚ) * p.buy_prop))
        (afforded_size s.cash close0)), mkSubmitted .sell s.position] ∧
    (next p lenSelf len_data close0 close1 open1 true true s).1.order =
      some (mkSubmitted .sell s.position) := by
  have hsv' : (0 : ℚ) < s.value - s.cash := sub_pos.mpr hsv
  unfold next
  rw [hexec]
  cases hpl : p.periodic_logging <;> cases htl : p.transaction_logging <;>
    simp [hord, hguard, hb, hsv, hsv', SELL_PROP]

/-- Witness for the amended same-bar double-submission property at the
concrete two-branch state. -/
theorem buy_then_sell_both_submitted_witness :
    defaultParams.execution_type = "close" ∧ buyAndSellState.order = none ∧
    lastBarGuard 1 5 = false ∧ (100 : ℚ) ≤ buyAndSellState.cash ∧
    buyAndSellState.cash < buyAndSellState.value ∧
    (next defaultParams 1 5 100 100 100 true true buyAndSellState).1.order =
      some (mkSubmitted .sell buyAndSellState.position) :=
  ⟨rfl, rfl, rfl, by norm_num [buyAndSellState], by norm_num [buyAndSellState],
    (buy_then_sell_both_submitted defaultParams 1 5 100 100 100 buyAndSellState
      rfl rfl rfl (by norm_num [buyAndSellState]) (by norm_num [buyAndSellState])).2⟩

end Fastquant

namespace Fastquant

/-- C7: on any terminal notification the pending order is cleared (the
engine returns to idle); a completed buy records the executed price and
commission as the new cost basis; a canceled, margin or rejected order
changes no ledger field, and with transaction logging enabled (the
default) the three causes produce three different flag-line suffixes in
the log — distinguished, not collapsed. -/
theorem notify_order_terminal_behaviour (p : Params) (lenSelf : ℕ) (o : Order)
    (s : StrategyState)
    (hterm : o.status = .Completed ∨ o.status = .Canceled ∨ o.status = .Margin ∨
      o.status = .Rejected) :
    (notify_order p lenSelf o s).order = none ∧
    (o.status = .Completed → o.side = .buy →
      (notify_order p lenSelf o s).buyprice = some o.executedPrice ∧
      (notify_order p lenSelf o s).buycomm = some o.executedComm) ∧
    (o.status = .Canceled ∨ o.status = .Margin ∨ o.status = .Rejected →
      (notify_order p lenSelf o s).cash = s.cash ∧
      (notify_order p lenSelf o s).value = s.value ∧
      (notify_order p lenSelf o s).position = s.position ∧
      (notify_order p lenSelf o s).buyprice = s.buyprice ∧
      (notify_order p lenSelf o s).buycomm = s.buycomm) ∧
    (p.transaction_logging = true →
      (o.status = .Canceled → (notify_order p lenSelf o s).log = s.log ++
        (if p.periodic_logging then [] else [.cashValue s.cash s.value]) ++
        [.orderCMR, .canceledFlag true, .marginFlag false, .rejectedFlag false]) ∧
      (o.status = .Margin → (notify_order p lenSelf o s).log = s.log ++
        (if p.periodic_logging then [] else [.cashValue s.cash s.value]) ++
        [.orderCMR, .canceledFlag false, .marginFlag true, .rejectedFlag false]) ∧
      (o.status = .Rejected → (notify_order p lenSelf o s).log = s.log ++
        (if p.periodic_logging then [] else [.cashValue s.cash s.value]) ++
        [.orderCMR, .canceledFlag false, .marginFlag false, .rejectedFlag true])) := by
  rcases hterm with h | h | h | h <;>
    cases hsd : o.side <;> cases htl : p.transaction_logging <;>
      cases hpl : p.periodic_logging <;> simp [notify_order, h, hsd, htl, hpl]

/-- A canceled sell order used to witness the terminal-notification
behaviour. -/
def canceledOrder : Order :=
  { side := .sell, size := 5, status := .Canceled
    executedPrice := 0, executedValue := 0, executedComm := 0 }

/-- Witness for the terminal-notification behaviour: a canceled order is
cleared and leaves the ledger untouched. -/
theorem notify_order_terminal_behaviour_witness :
    (canceledOrder.status = .Canceled ∨ canceledOrder.status = .Margin ∨
      canceledOrder.status = .Rejected) ∧
    (notify_order defaultParams 3 canceledOrder buyAndSellState).order = none ∧
    (notify_order defaultParams 3 canceledOrder buyAndSellState).cash =
      buyAndSellState.cash :=
  ⟨Or.inl rfl,
    (notify_order_terminal_behaviour defaultParams 3 canceledOrder buyAndSellState
      (Or.inr (Or.inl rfl))).1,
    ((notify_order_terminal_behaviour defaultParams 3 canceledOrder buyAndSellState
      (Or.inr (Or.inl rfl))).2.2.1 (Or.inl rfl)).1⟩

end Fastquant

namespace Fastquant

/-- The strategy keys of `STRATEGY_MAPPING`. -/
inductive StrategyKey where
  | rsi
  | smac
  | base
deriving DecidableEq

/-- `STRATEGY_MAPPING = {"rsi": RSIStrategy, "smac": SMACStrategy,
"base": BaseStrategy}`. -/
def STRATEGY_MAPPING : List (String × StrategyKey) :=
  [("rsi", .rsi), ("smac", .smac), ("base", .base)]

/-- `STRATEGY_MAPPING[strategy]`: `none` models the `KeyError` raised for
an unknown key, before `cerebro.run()` processes any bar. -/
def lookupStrategy (key : String) : Option StrategyKey :=
  (STRATEGY_MAPPING.find? (fun q => q.1 == key)).map (fun q => q.2)

/-- The strategy parameters passed by
`cerebro.addstrategy(..., init_cash=init_cash, **kwargs)`: the commission
argument of `backtest` is *not* among them (it goes only to
`cerebro.broker.setcommission`). -/
def strategyConfigOf (_commission init_cash : ℚ) (kwargs : Params) : Params :=
  { kwargs with init_cash := init_cash }

/-- The result of the construction phase of `backtest`: the resolved
strategy class, the strategy parameters, and the broker commission and
starting cash. -/
structure BacktestSetup where
  key : StrategyKey
  strategyParams : Params
  brokerCommission : ℚ
  brokerCash : ℚ
deriving DecidableEq

/-- The construction phase of `backtest` (everything before
`cerebro.run()`): resolve the strategy key, hand the strategy its
parameters unchecked, and configure the broker.  No argument is
validated. -/
def backtest_setup (strategy : String) (commission init_cash : ℚ)
    (kwargs : Params) : Option BacktestSetup :=
  (lookupStrategy strategy).map (fun k =>
    { key := k, strategyParams := strategyConfigOf commission init_cash kwargs
      brokerCommission := commission, brokerCash := init_cash })

/-- The parameters stored by `RSIStrategy.__init__`, unvalidated. -/
structure RSIParams where
  rsi_period : ℤ
  rsi_upper : ℤ
  rsi_lower : ℤ
deriving DecidableEq

/-- `RSIStrategy.__init__`: initializes the base state and stores the RSI
parameters exactly as given — no period validation. -/
def RSIStrategy_init (p : Params) (rp : RSIParams) : StrategyState × RSIParams :=
  (BaseStrategy_init p, rp)

/-- C8 (counterexample): constructing a run with `buy_prop = 2` — outside
the claimed valid range `(0,1]` — succeeds, and an `rsi_period` of 0 is
stored as-is; neither triggers any configuration error. -/
theorem invalid_params_accepted_at_construction :
    (backtest_setup "base" 0 100000 { defaultParams with buy_prop := 2 }).isSome = true ∧
    ¬ ((0 : ℚ) < 2 ∧ (2 : ℚ) ≤ 1) ∧
    (RSIStrategy_init defaultParams ⟨0, 70, 30⟩).2.rsi_period = 0 ∧
    ¬ ((0 : ℤ) < 0) := by
  refine ⟨rfl, by norm_num, rfl, by norm_num⟩

/-- C8 (amended): an unknown strategy key does fail before any bar is
processed (`STRATEGY_MAPPING[strategy]` has no entry, modelled as
`none`); but proportions and periods are never validated: construction
succeeds for every parameter value and stores the values exactly as
given, with no error and no defaulting. -/
theorem unknown_key_fails_other_params_unchecked :
    lookupStrategy "unknown" = none ∧
    (∀ (commission init_cash : ℚ) (kwargs : Params),
      backtest_setup "base" commission init_cash kwargs =
        some { key := .base, strategyParams := { kwargs with init_cash := init_cash }
               brokerCommission := commission, brokerCash := init_cash }) ∧
    (∀ (p : Params) (rp : RSIParams), (RSIStrategy_init p rp).2 = rp) := by
  refine ⟨rfl, fun commission init_cash kwargs => rfl, fun p rp => rfl⟩

end Fastquant

namespace Fastquant

/-- C9: under close execution the full-liquidation case is selected by
the module constant `SELL_PROP` (fixed at 1), not the configured
`sell_prop`: whenever the sell branch fires, the submitted sell order is
for the entire current position, and the whole result of `next` is
unchanged if `sell_prop` is replaced by any other value. -/
theorem close_sell_ignores_sell_prop (p : Params) (sp : ℚ)
    (lenSelf len_data : ℕ) (close0 close1 open1 : ℚ) (buySig : Bool)
    (s : StrategyState) (hexec : p.execution_type = "close")
    (_hsp : 0 < p.sell_prop ∧ p.sell_prop ≤ 1) (hord : s.order = none)
    (hguard : lastBarGuard lenSelf len_data = false) (hsv : s.cash < s.value) :
    ((next p lenSelf len_data close0 close1 open1 buySig true s).2).getLast? =
      some (mkSubmitted .sell s.position) ∧
    next p lenSelf len_data close0 close1 open1 buySig true s =
      next { p with sell_prop := sp } lenSelf len_data close0 close1 open1 buySig true s := by
  have hsv' : (0 : ℚ) < s.value - s.cash := sub_pos.mpr hsv
  constructor
  · exact (sell_close_full_liquidation p lenSelf len_data close0 close1 open1 buySig s
      hexec hord hguard hsv).1
  · unfold next
    cases hpl : p.periodic_logging <;> cases htl : p.transaction_logging <;>
      by_cases hb : close0 ≤ s.cash <;> cases buySig <;>
        simp [hexec, hord, hguard, hb, hsv, hsv', SELL_PROP]

/-- Witness for the `SELL_PROP` independence property: with the default
parameters and `sell_prop` replaced by 1/2, the submitted orders are
unchanged and the full position of 10 is sold. -/
theorem close_sell_ignores_sell_prop_witness :
    defaultParams.execution_type = "close" ∧
    (0 < defaultParams.sell_prop ∧ defaultParams.sell_prop ≤ 1) ∧
    openSellState.order = none ∧ lastBarGuard 1 5 = false ∧
    openSellState.cash < openSellState.value ∧
    next defaultParams 1 5 100 100 1 true true openSellState =
      next { defaultParams with sell_prop := 1 / 2 } 1 5 100 100 1 true true openSellState :=
  ⟨rfl, by norm_num [defaultParams, SELL_PROP], rfl, rfl,
    by norm_num [openSellState],
    (close_sell_ignores_sell_prop defaultParams (1 / 2) 1 5 100 100 1 true openSellState
      rfl (by norm_num [defaultParams, SELL_PROP]) rfl rfl
      (by norm_num [openSellState])).2⟩

end Fastquant



namespace Fastquant

/-- The full state of a closed-loop simulated run: broker ledger, orders
awaiting execution, strategy state, and the trace of submitted orders. -/
structure SimState where
  brokerCash : ℚ
  brokerPosition : ℤ
  pending : List Order
  strat : StrategyState
  submitted : List Order
deriving DecidableEq

/-- Modelled from the spec: the execution simulator is external to this
repository.  It "matches orders against prices and applies commission":
a pending order fills at the reference close, a commission of
`commission × size × price` is charged against cash, and the order
reaches the `Completed` terminal state. -/
def brokerExecute (commission price : ℚ) (o : Order) (cash : ℚ) (pos : ℤ) :
    ℚ × ℤ × Order :=
  match o.side with
  | .buy => (cash - o.size * price - commission * (o.size * price), pos + o.size,
      { o with
        status := .Completed, executedPrice := price,
        executedValue := o.size * price, executedComm := commission * (o.size * price) })
  | .sell => (cash + o.size * price - commission * (o.size * price), pos - o.size,
      { o with
        status := .Completed, executedPrice := price,
        executedValue := o.size * price, executedComm := commission * (o.size * price) })

/-- Modelled from the spec: the broker fills one pending order and
notifies the strategy of the terminal state. -/
def brokerStep (commission close0 : ℚ) (p : Params) (lenSelf : ℕ)
    (st : SimState) (o : Order) : SimState :=
  let r := brokerExecute commission close0 o st.brokerCash st.brokerPosition
  { st with
    brokerCash := r.1, brokerPosition := r.2.1,
    strat := notify_order p lenSelf r.2.2 st.strat }

/-- Modelled from the spec: the strategy state right before `next` runs
on a bar — all of the previous bar's orders filled and notified, cash and
value (`value = cash + position × close`) reported, and the broker
position visible to the strategy. -/
def simBarStratIn (commission : ℚ) (p : Params) (lenSelf : ℕ) (close0 : ℚ)
    (st : SimState) : StrategyState :=
  let stA := st.pending.foldl (brokerStep commission close0 p lenSelf) st
  { notify_cashvalue p stA.brokerCash
      (stA.brokerCash + stA.brokerPosition * close0) stA.strat with
    position := stA.brokerPosition }

/-- Modelled from the spec: one simulated bar of the closed loop for the
base strategy (both signals always true): fill and notify, report cash
and value, then run `next` and queue its submissions for the following
bar. -/
def simBar (commission : ℚ) (p : Params) (lenSelf len_data : ℕ)
    (close0 close1 : ℚ) (st : SimState) : SimState :=
  let stA := st.pending.foldl (brokerStep commission close0 p lenSelf) st
  let rN := next p lenSelf len_data close0 close1 0 true true
    (simBarStratIn commission p lenSelf close0 st)
  { brokerCash := stA.brokerCash, brokerPosition := stA.brokerPosition,
    pending := rN.2, strat := rN.1, submitted := stA.submitted ++ rN.2 }

/-- Modelled from the spec: run the closed loop over a list of closes;
the bar with 0-based index `k` has `len(self) = k + 1`. -/
def simRun (commission : ℚ) (p : Params) (len_data : ℕ) :
    List ℚ → ℕ → SimState → SimState
  | [], _, st => st
  | c :: rest, k, st =>
      simRun commission p len_data rest (k + 1)
        (simBar commission p (k + 1) len_data c (rest.headD 0) st)

/-- The initial simulation state: broker funded with `INIT_CASH`, no
position, freshly initialized base strategy. -/
def simInit : SimState :=
  { brokerCash := INIT_CASH, brokerPosition := 0, pending := [],
    strat := BaseStrategy_init defaultParams, submitted := [] }

/-- Modelled from the spec: a whole `backtest` run of the base strategy
over a feed of closes, with the given broker commission. -/
def runBase (commission : ℚ) (closes : List ℚ) : SimState :=
  simRun commission (strategyConfigOf commission INIT_CASH defaultParams)
    closes.length closes 0 simInit

/-- The strategy parameters that `backtest` builds from the default
kwargs do not depend on the commission argument. -/
theorem strategyConfigOf_default (c : ℚ) :
    strategyConfigOf c INIT_CASH defaultParams = defaultParams := rfl

/-- On a guarded bar, `next` submits nothing. -/
theorem next_snd_nil_of_guard (p : Params) (lenSelf len_data : ℕ)
    (close0 close1 open1 : ℚ) (buySig sellSig : Bool) (s : StrategyState)
    (h : lastBarGuard lenSelf len_data = true) :
    (next p lenSelf len_data close0 close1 open1 buySig sellSig s).2 = [] := by
  unfold next
  cases hpl : p.periodic_logging <;> cases ho : s.order <;> simp [h]

/-- Broker fills never touch the submitted-order trace. -/
theorem brokerStep_submitted (commission close0 : ℚ) (p : Params) (lenSelf : ℕ)
    (st : SimState) (o : Order) :
    (brokerStep commission close0 p lenSelf st o).submitted = st.submitted := rfl

/-- Folding broker fills over any pending list preserves the trace. -/
theorem foldl_brokerStep_submitted (commission close0 : ℚ) (p : Params) (lenSelf : ℕ) :
    ∀ (l : List Order) (st : SimState),
      (l.foldl (brokerStep commission close0 p lenSelf) st).submitted = st.submitted
  | [], _ => rfl
  | o :: l, st => by
      rw [List.foldl_cons, foldl_brokerStep_submitted commission close0 p lenSelf l,
        brokerStep_submitted]

/-- A simulated bar extends the trace by exactly what `next` submits. -/
theorem simBar_submitted_eq (commission : ℚ) (p : Params) (lenSelf len_data : ℕ)
    (close0 close1 : ℚ) (st : SimState) :
    (simBar commission p lenSelf len_data close0 close1 st).submitted =
      st.submitted ++ (next p lenSelf len_data close0 close1 0 true true
        (simBarStratIn commission p lenSelf close0 st)).2 := by
  simp only [simBar]
  rw [foldl_brokerStep_submitted]

/-- A guarded bar leaves the submitted-order trace unchanged. -/
theorem simBar_submitted_of_guard (commission : ℚ) (p : Params)
    (lenSelf len_data : ℕ) (close0 close1 : ℚ) (st : SimState)
    (h : lastBarGuard lenSelf len_data = true) :
    (simBar commission p lenSelf len_data close0 close1 st).submitted = st.submitted := by
  rw [simBar_submitted_eq, next_snd_nil_of_guard _ _ _ _ _ _ _ _ _ h, List.append_nil]

/-- The strategy log after the first bar's buy. -/
def log1 : List LogEvent :=
  [.buyCreate 100, .cashLog 100000, .priceLog 100, .buyPropSizeLog 991,
   .affordedSizeLog 991, .finalSizeLog 991]

/-- The simulation state after the first bar of the four-bar
constant-price run: a buy of 991 submitted and pending. -/
def st1 : SimState :=
  { brokerCash := 100000, brokerPosition := 0, pending := [mkSubmitted .buy 991],
    strat :=
      { cash := 100000, value := 100000, position := 0,
        order := some (mkSubmitted .buy 991), buyprice := none, buycomm := none,
        bar_executed := none, log := log1 },
    submitted := [mkSubmitted .buy 991] }

/-- With no fill yet, the first bar's pre-decision state is just the
initialized strategy. -/
theorem simBarStratIn_first (c : ℚ) :
    simBarStratIn c defaultParams 1 100 simInit = BaseStrategy_init defaultParams := by
  norm_num [simBarStratIn, simInit, List.foldl, notify_cashvalue,
    BaseStrategy_init, defaultParams, INIT_CASH]

/-- On the first bar the base strategy buys 991 units. -/
theorem next_first :
    next defaultParams 1 4 100 100 0 true true (BaseStrategy_init defaultParams) =
      (st1.strat, [mkSubmitted .buy 991]) := by
  norm_num [next, BaseStrategy_init, defaultParams, lastBarGuard, INIT_CASH,
    BUY_PROP, SELL_PROP, mkSubmitted, st1, log1, afforded_size, affordableSize,
    pyInt, COMMISSION_PER_TRANSACTION]

/-- The first bar of the four-bar run is commission-independent: no fill
has happened yet. -/
theorem simBar_first (c : ℚ) : simBar c defaultParams 1 4 100 100 simInit = st1 := by
  simp only [simBar]
  rw [simBarStratIn_first, next_first]
  simp [simInit, st1, INIT_CASH, List.foldl]

/-- The strategy state right before the second bar's decision, as a
function of the cash, value and commission left by the first fill. -/
def strat2 (cash value comm : ℚ) : StrategyState :=
  { cash := cash, value := value, position := 991,
    order := none, buyprice := some 100, buycomm := some comm,
    bar_executed := some 2, log := log1 ++ [.buyExecuted 100 99100 comm] }

/-- Second-bar pre-decision state under zero commission: the 991-unit
fill leaves 900 in cash. -/
theorem simBarStratIn_second_zero :
    simBarStratIn 0 defaultParams 2 100 st1 = strat2 900 100000 0 := by
  norm_num [simBarStratIn, st1, log1, List.foldl, brokerStep, brokerExecute,
    notify_order, notify_cashvalue, defaultParams, mkSubmitted, strat2]
  all_goals simp

/-- Second-bar pre-decision state under the default commission: the fill
also charges 743.25 of commission, leaving 156.75. -/
theorem simBarStratIn_second_comm :
    simBarStratIn (75 / 10000) defaultParams 2 100 st1 =
      strat2 (627 / 4) (397027 / 4) (2973 / 4) := by
  norm_num [simBarStratIn, st1, log1, List.foldl, brokerStep, brokerExecute,
    notify_order, notify_cashvalue, defaultParams, mkSubmitted, strat2]
  all_goals simp

/-- With 900 in cash the second-bar buy is 8 units, followed by the full
991-unit sell. -/
theorem next_second_zero :
    (next defaultParams 2 4 100 100 0 true true (strat2 900 100000 0)).2 =
      [mkSubmitted .buy 8, mkSubmitted .sell 991] := by
  norm_num [next, strat2, log1, defaultParams, lastBarGuard, INIT_CASH,
    BUY_PROP, SELL_PROP, mkSubmitted, afforded_size, affordableSize, pyInt,
    COMMISSION_PER_TRANSACTION]

/-- With 156.75 in cash the second-bar buy shrinks to 1 unit. -/
theorem next_second_comm :
    (next defaultParams 2 4 100 100 0 true true
        (strat2 (627 / 4) (397027 / 4) (2973 / 4))).2 =
      [mkSubmitted .buy 1, mkSubmitted .sell 991] := by
  norm_num [next, strat2, log1, defaultParams, lastBarGuard, INIT_CASH,
    BUY_PROP, SELL_PROP, mkSubmitted, afforded_size, affordableSize, pyInt,
    COMMISSION_PER_TRANSACTION]

/-- With zero commission the four-bar constant-price run submits buys of
991 and 8 and a full sell of 991. -/
theorem runBase_no_commission :
    (runBase 0 [100, 100, 100, 100]).submitted =
      [mkSubmitted .buy 991, mkSubmitted .buy 8, mkSubmitted .sell 991] := by
  unfold runBase
  rw [strategyConfigOf_default]
  simp only [List.length_cons, List.length_nil, Nat.reduceAdd, simRun, List.headD]
  rw [simBar_submitted_of_guard 0 defaultParams 4 4 100 0 _ (by rfl),
    simBar_submitted_of_guard 0 defaultParams 3 4 100 100 _ (by rfl),
    simBar_first, simBar_submitted_eq, simBarStratIn_second_zero, next_second_zero]
  rfl

/-- With the default commission the second-bar buy shrinks to 1 unit. -/
theorem runBase_default_commission :
    (runBase (75 / 10000) [100, 100, 100, 100]).submitted =
      [mkSubmitted .buy 991, mkSubmitted .buy 1, mkSubmitted .sell 991] := by
  unfold runBase
  rw [strategyConfigOf_default]
  simp only [List.length_cons, List.length_nil, Nat.reduceAdd, simRun, List.headD]
  rw [simBar_submitted_of_guard (75 / 10000) defaultParams 4 4 100 0 _ (by rfl),
    simBar_submitted_of_guard (75 / 10000) defaultParams 3 4 100 100 _ (by rfl),
    simBar_first, simBar_submitted_eq, simBarStratIn_second_comm, next_second_comm]
  rfl

/-- C10 (counterexample): two runs on identical data and configuration
that differ only in the commission argument submit different order
sizes: commission charged on the first fill shrinks the reported cash,
and the second bar's afforded size drops from 8 to 1. -/
theorem run_orders_depend_on_commission :
    (runBase 0 [100, 100, 100, 100]).submitted ≠
      (runBase (75 / 10000) [100, 100, 100, 100]).submitted := by
  rw [runBase_no_commission, runBase_default_commission]
  simp [mkSubmitted]

/-- C10 (amended): the strategy itself never sees the commission
argument: `cerebro.addstrategy` passes only `init_cash` and the kwargs,
so the strategy parameters — and with them every per-bar decision of
`next` on any given state — are identical for any two commission
arguments.  Whole-run order traces still depend on commission through
the broker's cash feedback. -/
theorem strategy_blind_to_commission (c₁ c₂ init_cash : ℚ) (kwargs : Params)
    (lenSelf len_data : ℕ) (close0 close1 open1 : ℚ) (buySig sellSig : Bool)
    (s : StrategyState) :
    strategyConfigOf c₁ init_cash kwargs = strategyConfigOf c₂ init_cash kwargs ∧
    next (strategyConfigOf c₁ init_cash kwargs) lenSelf len_data close0 close1 open1
        buySig sellSig s =
      next (strategyConfigOf c₂ init_cash kwargs) lenSelf len_data close0 close1 open1
        buySig sellSig s :=
  ⟨rfl, rfl⟩

end Fastquant
